import Mathlib

/-!
Shallow embedding of the moltchat IRC agent client (src/moltchat/client.py)
and proofs about its specified behaviour.

Conventions:
- Python `str` values are Lean `String`s; the character-level operations the
  source uses (`split`, `partition`, `strip`, slicing, `re.search`/`re.sub`
  for the fixed soul-tag pattern) are modelled as executable functions over
  `List Char` below, each annotated with the Python expression it embeds.
- The client's mutable channel set (a Python `set`) is a `Finset String`.
- Fallible code (the `IndexError` reachable in `_parse_message`) is modelled
  by a `failed` flag carrying the effects emitted before the exception.
- Wall-clock values (`time.time()`) are abstracted as explicit parameters;
  the `timestamp` field of `Message` (wall clock) is omitted.
-/

/-! ### Python string primitives -/

/-- Python `str.isspace` for the ASCII whitespace characters; `str.strip()`
strips exactly these on the inputs considered here (char 11 is `\v`, 12 `\f`). -/
def pyIsSpace (c : Char) : Bool :=
  c = ' ' || c = '\t' || c = '\n' || c = '\r' || c = Char.ofNat 11 || c = Char.ofNat 12

/-- Python `s.strip()` on the character list of `s`. -/
def pyStripChars (l : List Char) : List Char :=
  ((l.dropWhile pyIsSpace).reverse.dropWhile pyIsSpace).reverse

/-- Python `s.strip()`. -/
def pyStrip (s : String) : String := String.mk (pyStripChars s.toList)

/-- Python `s.startswith(pat)` (`hasPref pat s`). -/
def hasPref : List Char → List Char → Bool
  | [], _ => true
  | _ :: _, [] => false
  | p :: ps, c :: cs => if p = c then hasPref ps cs else false

/-- Python `pat in s` (substring containment). -/
def hasSub (pat : List Char) : List Char → Bool
  | [] => hasPref pat []
  | c :: cs => hasPref pat (c :: cs) || hasSub pat cs

/-- One step of Python `s.split(" ", _)`: the text before the first space,
and the remainder after it (`none` when there is no space). -/
def splitSp1 : List Char → List Char × Option (List Char)
  | [] => ([], none)
  | c :: cs => if c = ' ' then ([], some cs)
               else (c :: (splitSp1 cs).1, (splitSp1 cs).2)

/-- Python `s.split(" ", 2)`: one to three fields, the last one unsplit. -/
def pySplit2 (l : List Char) : List (List Char) :=
  match splitSp1 l with
  | (t0, none) => [t0]
  | (t0, some r1) =>
    match splitSp1 r1 with
    | (t1, none) => [t0, t1]
    | (t1, some r2) => [t0, t1, r2]

/-- The two-character separator `" :"` used by `partition`/`split` in the source. -/
def spColonLit : List Char := [' ', ':']

/-- Leftmost occurrence of the separator `sep`: `some (before, after)`, or
`none` when `sep` does not occur.  This is the search underlying Python's
`s.partition(sep)` and `s.split(sep)`. -/
def pyPartitionSep (sep : List Char) : List Char → Option (List Char × List Char)
  | [] => none
  | c :: cs =>
    if hasPref sep (c :: cs) then some ([], (c :: cs).drop sep.length)
    else
      match pyPartitionSep sep cs with
      | some (a, b) => some (c :: a, b)
      | none => none

/-- Fuelled tail of Python `params.split(" :")[-1]`: repeatedly drop through
the leftmost `" :"`; what is left when no separator remains is the last field. -/
def joinChF : Nat → List Char → List Char
  | 0, l => l
  | n + 1, l =>
    match pyPartitionSep spColonLit l with
    | none => l
    | some (_, b) => joinChF n b

/-- Python `params.split(" :")[-1]` (the list returned by `split` is never
empty, so indexing with `-1` cannot fail). -/
def joinChannelOf (params : List Char) : List Char := joinChF params.length params

/-- Python `params.split()[0]` as an `Option`: `split()` with no arguments
drops empty fields, so the result is `none` — an `IndexError` in the source —
exactly when `params` has no non-whitespace character. -/
def firstWsToken (params : List Char) : Option (List Char) :=
  match params.dropWhile pyIsSpace with
  | [] => none
  | c :: cs => some (c :: cs.takeWhile (fun d => !pyIsSpace d))

/-! ### The soul-tag pattern

`_parse_message` uses `re.search(r'\[Soul:([^\]]+)\]', content)` and
`re.sub(r'\[Soul:[^\]]+\]', '', content)`.  The pattern is a literal
`[Soul:` followed by a nonempty run of non-`]` characters and a `]`;
`search` finds the leftmost match and `sub` removes every non-overlapping
match left to right. -/

/-- The literal head `[Soul:` of the tag pattern. -/
def soulTagLit : List Char := ['[', 'S', 'o', 'u', 'l', ':']

/-- Attempt the tag pattern at the head of `l`: on success, the capture
group (the nonempty run of non-`]` characters after the literal) and the
remainder after the closing `]`.  `rest`, when nonempty, necessarily starts
with `]` (the first character failing the run's predicate), so dropping one
character crosses the `]`. -/
def trySoulTag (l : List Char) : Option (List Char × List Char) :=
  if hasPref soulTagLit l then
    let r := l.drop 6
    let idc := r.takeWhile (fun c => !(c = ']'))
    let rest := r.dropWhile (fun c => !(c = ']'))
    if idc = [] ∨ rest = [] then none else some (idc, rest.tail)
  else none

/-- Python `re.search(r'\[Soul:([^\]]+)\]', l)`: capture group of the leftmost match. -/
def soulFind : List Char → Option (List Char)
  | [] => none
  | c :: cs =>
    match trySoulTag (c :: cs) with
    | some (idc, _) => some idc
    | none => soulFind cs

/-- Fuelled body of `re.sub(r'\[Soul:[^\]]+\]', '', l)`: scan left to right,
removing each match and continuing after it.  The fuel only needs to cover
the length of the list. -/
def soulSubF : Nat → List Char → List Char
  | 0, l => l
  | _ + 1, [] => []
  | n + 1, c :: cs =>
    match trySoulTag (c :: cs) with
    | some (_, rem) => soulSubF n rem
    | none => c :: soulSubF n cs

/-- Python `re.sub(r'\[Soul:[^\]]+\]', '', l)`. -/
def soulSub (l : List Char) : List Char := soulSubF l.length l

/-! ### HMAC-SHA-256 and `Soul`

`Soul.sign` is `hmac.new(seed.encode(), content.encode(), hashlib.sha256).hexdigest()`.
The Python library calls are embedded executably: UTF-8 encoding of strings,
FIPS 180-4 SHA-256 over byte lists (bytes are `Nat`s below 256, words are
`Nat`s reduced mod `2^32`), and FIPS 198-1 HMAC.  All recursion is
structural so the functions evaluate inside the kernel. -/

/-- Reduce to a 32-bit word. -/
def u32 (n : Nat) : Nat := n % 4294967296

/-- Right rotation of a 32-bit word by `k`. -/
def rotr (k n : Nat) : Nat := u32 ((n >>> k) ||| (n <<< (32 - k)))

/-- SHA-256 `Σ₀`. -/
def bSig0 (x : Nat) : Nat := rotr 2 x ^^^ rotr 13 x ^^^ rotr 22 x

/-- SHA-256 `Σ₁`. -/
def bSig1 (x : Nat) : Nat := rotr 6 x ^^^ rotr 11 x ^^^ rotr 25 x

/-- SHA-256 `σ₀`. -/
def sSig0 (x : Nat) : Nat := rotr 7 x ^^^ rotr 18 x ^^^ (x >>> 3)

/-- SHA-256 `σ₁`. -/
def sSig1 (x : Nat) : Nat := rotr 17 x ^^^ rotr 19 x ^^^ (x >>> 10)

/-- SHA-256 `Ch(x,y,z)` (`¬x` on 32 bits is `x ^^^ 0xffffffff`). -/
def chF (x y z : Nat) : Nat := (x &&& y) ^^^ ((x ^^^ 4294967295) &&& z)

/-- SHA-256 `Maj(x,y,z)`. -/
def majF (x y z : Nat) : Nat := (x &&& y) ^^^ (x &&& z) ^^^ (y &&& z)

/-- The 64 SHA-256 round constants. -/
def sha256K : List Nat :=
  [1116352408, 1899447441, 3049323471, 3921009573, 961987163,
   1508970993, 2453635748, 2870763221, 3624381080, 310598401,
   607225278, 1426881987, 1925078388, 2162078206, 2614888103,
   3248222580, 3835390401, 4022224774, 264347078, 604807628,
   770255983, 1249150122, 1555081692, 1996064986, 2554220882,
   2821834349, 2952996808, 3210313671, 3336571891, 3584528711,
   113926993, 338241895, 666307205, 773529912, 1294757372,
   1396182291, 1695183700, 1986661051, 2177026350, 2456956037,
   2730485921, 2820302411, 3259730800, 3345764771, 3516065817,
   3600352804, 4094571909, 275423344, 430227734, 506948616,
   659060556, 883997877, 958139571, 1322822218, 1537002063,
   1747873779, 1955562222, 2024104815, 2227730452, 2361852424,
   2428436474, 2756734187, 3204031479, 3329325298]

/-- The eight SHA-256 initial hash values. -/
def sha256H0 : List Nat :=
  [1779033703, 3144134277, 1013904242, 2773480762, 1359893119,
   2600822924, 528734635, 1541459225]

/-- FIPS 180-4 padding: append `0x80`, zeros to 56 mod 64 bytes, then the
bit length as eight big-endian bytes. -/
def padBytes (msg : List Nat) : List Nat :=
  let L := msg.length
  let z := (119 - L % 64) % 64
  let bits := 8 * L
  msg ++ [128] ++ List.replicate z 0 ++
    [(bits >>> 56) &&& 255, (bits >>> 48) &&& 255, (bits >>> 40) &&& 255,
     (bits >>> 32) &&& 255, (bits >>> 24) &&& 255, (bits >>> 16) &&& 255,
     (bits >>> 8) &&& 255, bits &&& 255]

/-- Big-endian 4-byte groups to 32-bit words. -/
def bytesToWords : List Nat → List Nat
  | a :: b :: c :: d :: rest =>
    ((a <<< 24) ||| (b <<< 16) ||| (c <<< 8) ||| d) :: bytesToWords rest
  | _ => []

/-- Fuelled split of the word list into 16-word blocks. -/
def toBlocksF : Nat → List Nat → List (List Nat)
  | 0, _ => []
  | _ + 1, [] => []
  | n + 1, ws => ws.take 16 :: toBlocksF n (ws.drop 16)

/-- Split the word list into 16-word blocks. -/
def toBlocks (ws : List Nat) : List (List Nat) := toBlocksF ws.length ws

/-- One step of the message-schedule extension: append
`σ₁(w[i-2]) + w[i-7] + σ₀(w[i-15]) + w[i-16]` mod `2^32`. -/
def schedStep (w : List Nat) : List Nat :=
  w ++ [u32 (sSig1 (w.getD (w.length - 2) 0) + w.getD (w.length - 7) 0 +
             sSig0 (w.getD (w.length - 15) 0) + w.getD (w.length - 16) 0)]

/-- Iterate the schedule step. -/
def extendW : Nat → List Nat → List Nat
  | 0, w => w
  | n + 1, w => extendW n (schedStep w)

/-- The 64-word message schedule of a 16-word block. -/
def schedule (block : List Nat) : List Nat := extendW 48 block

/-- One compression round on the eight working registers. -/
def roundStep (st : List Nat) (kw : Nat × Nat) : List Nat :=
  match st with
  | [a, b, c, d, e, f, g, h] =>
    let t1 := u32 (h + bSig1 e + chF e f g + kw.1 + kw.2)
    let t2 := u32 (bSig0 a + majF a b c)
    [u32 (t1 + t2), a, b, c, u32 (d + t1), e, f, g]
  | other => other

/-- Compress one block into the running hash. -/
def compress (h : List Nat) (block : List Nat) : List Nat :=
  let st := (sha256K.zip (schedule block)).foldl roundStep h
  (h.zip st).map (fun p => u32 (p.1 + p.2))

/-- SHA-256 of a byte list, as 32 big-endian bytes. -/
def sha256Bytes (msg : List Nat) : List Nat :=
  let hs := (toBlocks (bytesToWords (padBytes msg))).foldl compress sha256H0
  hs.foldr (fun w acc =>
    ((w >>> 24) &&& 255) :: ((w >>> 16) &&& 255) :: ((w >>> 8) &&& 255) :: (w &&& 255) :: acc) []

/-- FIPS 198-1 HMAC-SHA-256 (block size 64; `0x36`/`0x5c` pads). -/
def hmacSha256 (key msg : List Nat) : List Nat :=
  let k0 := if 64 < key.length then sha256Bytes key else key
  let k1 := k0 ++ List.replicate (64 - k0.length) 0
  sha256Bytes ((k1.map (fun b => b ^^^ 92)) ++
    sha256Bytes ((k1.map (fun b => b ^^^ 54)) ++ msg))

/-- A lowercase hex digit. -/
def hexDigit (n : Nat) : Char :=
  if n < 10 then Char.ofNat (48 + n) else Char.ofNat (87 + n)

/-- Lowercase hex string of a byte list (`.hexdigest()`). -/
def bytesToHex (bs : List Nat) : List Char :=
  bs.foldr (fun b acc => hexDigit (b / 16) :: hexDigit (b % 16) :: acc) []

/-- Python `str.encode()`: UTF-8 bytes of the string. -/
def utf8Encode : List Char → List Nat
  | [] => []
  | c :: rest =>
    let n := c.toNat
    (if n < 128 then [n]
     else if n < 2048 then [192 + n / 64, 128 + n % 64]
     else if n < 65536 then [224 + n / 4096, 128 + n / 64 % 64, 128 + n % 64]
     else [240 + n / 262144, 128 + n / 4096 % 64, 128 + n / 64 % 64, 128 + n % 64])
    ++ utf8Encode rest

/-- Python `s.encode()`. -/
def strBytes (s : String) : List Nat := utf8Encode s.toList

/-- The `Soul` dataclass: an identity with a secret seed. -/
structure Soul where
  soul_id : String
  seed : String
  agent_name : String := ""
  paradigm : String := ""
  mode : String := ""
deriving DecidableEq

/-- Source `Soul.sign`: HMAC-SHA-256 of the content keyed by the seed, hex encoded. -/
def Soul.sign (s : Soul) (content : String) : String :=
  String.mk (bytesToHex (hmacSha256 (strBytes s.seed) (strBytes content)))

/-- Source `Soul.verify`: recompute the signature and compare
(`hmac.compare_digest` is a timing-safe equality test — its value is
string equality). -/
def Soul.verify (s : Soul) (content signature : String) : Bool :=
  s.sign content == signature

/-- Source `SoulAuth.from_seed`: derive the soul id as
`sha256("identity:" + seed)` and build the `Soul`. -/
def SoulAuth.from_seed (seed : String) (agent_name : String := "")
    (paradigm : String := "") (mode : String := "") : Soul :=
  { soul_id := String.mk (bytesToHex (sha256Bytes (strBytes ("identity:" ++ seed)))),
    seed := seed, agent_name := agent_name, paradigm := paradigm, mode := mode }

/-- Source `SoulAuth.from_imagony`: hash the joined credential components into a
seed, then `from_seed`. -/
def SoulAuth.from_imagony (api_key agent_name paradigm : String)
    (mode : String := "REAL") : Soul :=
  SoulAuth.from_seed
    (String.mk (bytesToHex (sha256Bytes (strBytes
      (api_key ++ ":" ++ agent_name ++ ":" ++ paradigm ++ ":" ++ "IMAGONY_SOUL_V1")))))
    agent_name paradigm mode

/-! ### Data model -/

/-- The `Message` dataclass from the source: a received chat event.  The wall-clock
`timestamp` field is omitted (out of scope of a shallow embedding). -/
structure Message where
  channel : String
  nick : String
  content : String
  soul_id : Option String := none
  signature : Option String := none
deriving DecidableEq

/-- Source `Message.is_verified`: `self.soul_id is not None and self.signature is not None`. -/
def Message.is_verified (m : Message) : Bool :=
  m.soul_id.isSome && m.signature.isSome

/-- The events `_trigger` can be called with by `connect`/`_handle_messages`/
`_parse_message` (handler arguments included where the claims need them). -/
inductive Event where
  | connect : Event
  | disconnect : Event
  | message : Message → Event
  | join : String → String → Event
  | part : String → String → Event
  | quit : String → Event
deriving DecidableEq

/-- An abstract registered handler: its observable output (the effects it
performs before returning or raising) and whether it raises.  `_trigger`
treats the underlying Python callable as opaque. -/
structure Handler where
  outs : List String
  raises : Bool
deriving DecidableEq

/-- The client state the claims are about: construction-time configuration
(`nick`, `soul` — as the soul id/seed pair —, `auto_reconnect`), the
`connected` flag, the channel membership set, and the handler registry. -/
structure AgentClient where
  nick : String
  soul : Option Soul := none
  auto_reconnect : Bool := true
  connected : Bool := false
  channels : Finset String := ∅
  handlers : List (String × List Handler) :=
    [("connect", []), ("disconnect", []), ("message", []),
     ("join", []), ("part", []), ("quit", [])]

/-- The result of `_parse_message` on one line: the raw commands written by
`_send`, the events passed to `_trigger`, the updated channel set, and
whether an exception escaped (the `IndexError` of `params.split()[0]`);
`sends`/`events`/`channels` are the effects performed before the raise. -/
structure ParseOut where
  sends : List String
  events : List Event
  channels : Finset String
  failed : Bool
deriving DecidableEq

/-- A `ParseOut` with no effects. -/
def noOut (cl : AgentClient) : ParseOut :=
  { sends := [], events := [], channels := cl.channels, failed := false }

/-- The `command == "PRIVMSG"` branch: `target, _, content = params.partition(" :")`,
then the soul-tag extraction, then `Message(...)` and `_trigger("message", msg)`. -/
def privmsgOut (cl : AgentClient) (nickStr : String) (params : List Char) : ParseOut :=
  let pr := pyPartitionSep spColonLit params
  let target := match pr with | some (a, _) => a | none => params
  let content := match pr with | some (_, b) => b | none => []
  let sc :=
    if hasSub soulTagLit content then
      match soulFind content with
      | some idc => (some (String.mk idc), String.mk (pyStripChars (soulSub content)))
      | none => (none, String.mk content)
    else (none, String.mk content)
  { sends := [],
    events := [Event.message
      { channel := String.mk target, nick := nickStr, content := sc.2,
        soul_id := sc.1, signature := none }],
    channels := cl.channels, failed := false }

/-- The `command == "JOIN"` branch: `channel = params.split(" :")[-1]`;
add to membership when the acting nick is our own; always trigger `join`. -/
def joinOut (cl : AgentClient) (nickStr : String) (params : List Char) : ParseOut :=
  let channel := String.mk (joinChannelOf params)
  { sends := [],
    events := [Event.join channel nickStr],
    channels := if nickStr = cl.nick then insert channel cl.channels else cl.channels,
    failed := false }

/-- The `command == "PART"` branch: `channel = params.split()[0]` raises
`IndexError` when `params` has no token (the raise happens before the
membership update and the `part` trigger); otherwise discard from
membership when the acting nick is our own and trigger `part`. -/
def partOut (cl : AgentClient) (nickStr : String) (params : List Char) : ParseOut :=
  match firstWsToken params with
  | none => { sends := [], events := [], channels := cl.channels, failed := true }
  | some ch =>
    let channel := String.mk ch
    { sends := [],
      events := [Event.part channel nickStr],
      channels := if nickStr = cl.nick then cl.channels.erase channel else cl.channels,
      failed := false }

/-- Dispatch on the parsed `command` (the `elif` chain of `_parse_message`);
`nick = source.split("!")[0] if "!" in source else source`, which is the
text before the first `!` in either case. -/
def parseCmd (cl : AgentClient) (src cmd params : List Char) : ParseOut :=
  let nickStr := String.mk (src.takeWhile (fun c => !(c = '!')))
  if cmd = "PRIVMSG".toList then privmsgOut cl nickStr params
  else if cmd = "JOIN".toList then joinOut cl nickStr params
  else if cmd = "PART".toList then partOut cl nickStr params
  else if cmd = "QUIT".toList then
    { sends := [], events := [Event.quit nickStr], channels := cl.channels, failed := false }
  else noOut cl

/-- Python `params = parts[2] if len(parts) > 2 else ""` (the tail of the
`split(" ", 2)` result holds zero or one further field). -/
def paramsOf : List (List Char) → List Char
  | [p] => p
  | _ => []

/-- A line starting with `:`: `parts = line[1:].split(" ", 2)`; only acted
on when `len(parts) >= 2`. -/
def parseColon (cl : AgentClient) (restLine : List Char) : ParseOut :=
  match pySplit2 restLine with
  | src :: cmd :: restP => parseCmd cl src cmd (paramsOf restP)
  | _ => noOut cl

/-- The characters of `"PING"` (`line.startswith("PING")`). -/
def pingLit : List Char := ['P', 'I', 'N', 'G']

/-- The characters of `":"` (`line.startswith(":")`). -/
def colonLit : List Char := [':']

/-- Source `AgentClient._parse_message`: answer `PING` first with
`self._send(f"PONG {line[5:]}")`; else, when the line starts with `:`,
parse `line[1:]`; otherwise ignore the line. -/
def AgentClient.parse_message (cl : AgentClient) (line : String) : ParseOut :=
  if hasPref pingLit line.data then
    { sends := ["PONG " ++ String.mk (line.data.drop 5)],
      events := [], channels := cl.channels, failed := false }
  else if hasPref colonLit line.data then
    parseColon cl (line.data.drop 1)
  else noOut cl

/-- Source `AgentClient._handle_messages`: read lines until EOF (the end of the
list), `strip` each and parse it; an exception escaping `_parse_message` is
caught, logged and breaks the loop.  After the loop `connected` is cleared
and `disconnect` is triggered.  Returns the accumulated raw sends, the
triggered events and the final channel set. -/
def AgentClient.handle_messages (cl : AgentClient) :
    List String → List String × List Event × Finset String
  | [] => ([], [Event.disconnect], cl.channels)
  | l :: rest =>
    let out := cl.parse_message (pyStrip l)
    if out.failed then
      (out.sends, out.events ++ [Event.disconnect], out.channels)
    else
      let r := AgentClient.handle_messages { cl with channels := out.channels } rest
      (out.sends ++ r.1, out.events ++ r.2.1, r.2.2)

/-! ### Outgoing operations and the event bus -/

/-- Source `AgentClient.say`: when `sign` is requested and a soul is present, wrap
the body as `[Soul:<id>] <message> [Sig:<first 16 hex chars>...]` (the full
signature is computed over the unsigned body but only a prefixed, truncated
form is transmitted); then send `PRIVMSG target :<message>`.  The channel
set and the rest of the state are untouched. -/
def AgentClient.say (cl : AgentClient) (target msgText : String) (sign : Bool) :
    AgentClient × List String :=
  let m :=
    match sign, cl.soul with
    | true, some so =>
      "[Soul:" ++ so.soul_id ++ "] " ++ msgText ++ " [Sig:" ++
        String.mk ((so.sign msgText).toList.take 16) ++ "...]"
    | _, _ => msgText
  (cl, ["PRIVMSG " ++ target ++ " :" ++ m])

/-- Source `AgentClient.join`: send `JOIN <channel>`; membership is not updated here. -/
def AgentClient.join (cl : AgentClient) (channel : String) :
    AgentClient × List String :=
  (cl, ["JOIN " ++ channel])

/-- Source `AgentClient.part`: send `PART <channel>[ :<reason>]`; membership is not
updated here. -/
def AgentClient.part (cl : AgentClient) (channel reason : String) :
    AgentClient × List String :=
  (cl, ["PART " ++ channel ++ (if reason = "" then "" else " :" ++ reason)])

/-- Source `AgentClient.quit`: disable auto-reconnect and send `QUIT :<reason>`. -/
def AgentClient.quit (cl : AgentClient) (reason : String) :
    AgentClient × List String :=
  ({ cl with auto_reconnect := false }, ["QUIT :" ++ reason])

/-- Handler list registered under event name `e`
(`self._handlers.get(event, [])`). -/
def regGet (reg : List (String × List Handler)) (e : String) : List Handler :=
  match reg with
  | [] => []
  | (k, l) :: rest => if k = e then l else regGet rest e

/-- The registry update of `AgentClient.on`: create the handler list for an
unknown event name, then append the handler (registration order is list
order). -/
def onReg : List (String × List Handler) → String → Handler → List (String × List Handler)
  | [], e, h0 => [(e, [h0])]
  | (k, l) :: rest, e, h0 =>
    if k = e then (k, l ++ [h0]) :: rest else (k, l) :: onReg rest e h0

/-- Source `AgentClient.on`: register a handler for an event name. -/
def AgentClient.on (cl : AgentClient) (event : String) (h : Handler) : AgentClient :=
  { cl with handlers := onReg cl.handlers event h }

/-- The loop body of `AgentClient._trigger`: run every handler in order;
a raising handler is caught and an error is logged, and the loop continues.
Returns the concatenated handler outputs and the logged errors. -/
def triggerList : List Handler → List String × List String
  | [] => ([], [])
  | h :: rest =>
    let r := triggerList rest
    (h.outs ++ r.1, (if h.raises then ["handler error"] else []) ++ r.2)

/-- Source `AgentClient._trigger`: dispatch to the registered handlers. -/
def AgentClient.trigger (cl : AgentClient) (event : String) : List String × List String :=
  triggerList (regGet cl.handlers event)

/-! ### The connection lifecycle -/

/-- The scripted outcome of one `asyncio.open_connection` attempt: the call
raises, or it succeeds and the stream yields these lines before EOF. -/
inductive ConnScript where
  | fail : ConnScript
  | ok : List String → ConnScript
deriving DecidableEq

/-- Observable steps of `AgentClient.connect`: a connection attempt, a raw
send, a triggered event, or an `asyncio.sleep`. -/
inductive CEvent where
  | attempt : CEvent
  | sent : String → CEvent
  | evt : Event → CEvent
  | sleep : Nat → CEvent
deriving DecidableEq

/-- The registration handshake sends, plus `_authenticate_soul` when a soul
is configured.  `t` stands for `int(time.time())`, abstracted as a
parameter. -/
def handshakeSends (cl : AgentClient) (t : Nat) : List String :=
  ["NICK " ++ cl.nick, "USER " ++ cl.nick ++ " 0 * :" ++ cl.nick ++ " Agent"] ++
  (match cl.soul with
   | some so =>
     ["SOUL " ++ so.soul_id,
      "PRIVMSG NickServ :IDENTIFY " ++ so.soul_id ++ " " ++
        so.sign ("AUTH:" ++ cl.nick ++ ":" ++ toString t)]
   | none => [])

/-- Source `AgentClient.connect` driven by a transport script (one entry per
attempt; an empty script ends the observation).  A failed attempt takes the
`except` branch: trigger `disconnect`, and — only if auto-reconnect is
enabled — sleep 5 and recurse.  A successful attempt performs the
handshake, triggers `connect` and runs `_handle_messages`; since the read
loop catches every exception internally and returns normally, the `except`
branch is not reached on that path and `connect` returns without
reconnecting. -/
def AgentClient.connect (cl : AgentClient) (t : Nat) : List ConnScript → List CEvent
  | [] => []
  | outcome :: rest =>
    CEvent.attempt ::
    (match outcome with
     | ConnScript.fail =>
       CEvent.evt Event.disconnect ::
       (if cl.auto_reconnect then CEvent.sleep 5 :: AgentClient.connect cl t rest else [])
     | ConnScript.ok lines =>
       let r := AgentClient.handle_messages { cl with connected := true } lines
       ((handshakeSends cl t).map CEvent.sent) ++ [CEvent.evt Event.connect] ++
         (r.1.map CEvent.sent) ++ (r.2.1.map CEvent.evt))

/-- A plain client as built by `AgentClient(nick="Bot")`: no soul,
auto-reconnect on, empty membership. -/
def botClient : AgentClient := { nick := "Bot" }

/-! ### Theorems -/

/-- A concrete soul for sample computations. -/
def sampleSoul : Soul := { soul_id := "x", seed := "topsecret" }

/-- First half of the signing contract, for every soul and every content
string: `verify(content, sign(content))` is true, because `verify`
recomputes the signature and `compare_digest` is an equality test. -/
theorem Soul.verify_sign (s : Soul) (c : String) : s.verify c (s.sign c) = true := by
  simp [Soul.verify]

set_option maxRecDepth 8192 in
/-- Computational check of the second half of the signing contract at a
sample input: appending `"x"` to the content changes the HMAC-SHA-256
value, so verification fails.  (The universally quantified second half is
collision-freeness of HMAC-SHA-256 on the pair `(c, c ++ "x")` and is not
provable or refutable; see RESULTS.) -/
theorem sign_discriminates_sample :
    sampleSoul.verify "hello" (sampleSoul.sign ("hello" ++ "x")) = false := by decide

/-- C2 (evaluation of the code at the failing input): with a transport that
connects successfully and is immediately at EOF, `connect` performs the
handshake, fires `connect`, the read loop ends at once firing `disconnect`,
and `connect` returns — one single connection attempt, no sleep, no second
attempt, although `auto_reconnect` is `true` and a second scripted attempt
was available.  In contrast (second conjunct), if the connection attempt
itself fails, the `except` branch does sleep 5 and retry. -/
theorem connect_close_after_ok_no_reconnect :
    AgentClient.connect botClient 0 [ConnScript.ok [], ConnScript.ok []] =
      [CEvent.attempt, CEvent.sent "NICK Bot", CEvent.sent "USER Bot 0 * :Bot Agent",
       CEvent.evt Event.connect, CEvent.evt Event.disconnect] ∧
    AgentClient.connect botClient 0 [ConnScript.fail, ConnScript.ok []] =
      [CEvent.attempt, CEvent.evt Event.disconnect, CEvent.sleep 5,
       CEvent.attempt, CEvent.sent "NICK Bot", CEvent.sent "USER Bot 0 * :Bot Agent",
       CEvent.evt Event.connect, CEvent.evt Event.disconnect] := by
  exact ⟨rfl, rfl⟩

/-- C3 (evaluation of the code at the failing input): a `PART` line with
empty params makes `_parse_message` raise (`params.split()[0]`), and the
read loop then breaks: the following well-formed `PRIVMSG` line is never
processed (no `message` event), the client is marked disconnected and the
`disconnect` event fires — the malformed line terminates the connection. -/
theorem part_empty_params_fatal :
    (botClient.parse_message ":eve!u@h PART").failed = true ∧
    AgentClient.handle_messages botClient [":eve!u@h PART", ":Alice!u@h PRIVMSG #c :hi"] =
      ([], [Event.disconnect], (∅ : Finset String)) := by
  exact ⟨rfl, rfl⟩

/-- C5: parsing `:Alice!u@h PRIVMSG #general :hello [Soul:deadbeef] world`
produces exactly one `message` event with channel `#general`, nick `Alice`,
soul id `deadbeef`, and content `hello  world` — the tag substring removed,
the interior double space left in place. -/
theorem privmsg_soul_tag_scenario :
    botClient.parse_message ":Alice!u@h PRIVMSG #general :hello [Soul:deadbeef] world" =
      { sends := [],
        events := [Event.message
          { channel := "#general", nick := "Alice", content := "hello  world",
            soul_id := some "deadbeef", signature := none }],
        channels := botClient.channels, failed := false } := by
  exact rfl

/-- C4 counterexample: on receiving `PING :abc123` the client transmits
`PONG :abc123` (the code sends `PONG` plus `line[5:]`, keeping the `:`),
not `PONG abc123` as claimed. -/
theorem ping_payload_cex :
    (botClient.parse_message "PING :abc123").sends = ["PONG :abc123"] ∧
    ¬ (botClient.parse_message "PING :abc123").sends = ["PONG abc123"] := by
  exact ⟨rfl, by decide⟩

/-- C6 counterexample: for a PRIVMSG whose content carries both a soul tag
and a trailing `[Sig:...]` suffix, the produced message content still
contains the `[Sig:` substring — only the soul tag was removed. -/
theorem sig_left_in_content_cex :
    (botClient.parse_message ":Alice!u@h PRIVMSG #c :[Soul:abc] hi [Sig:beef]").events =
      [Event.message
        { channel := "#c", nick := "Alice", content := "hi [Sig:beef]",
          soul_id := some "abc", signature := none }] ∧
    hasSub ("[Sig:".toList) ("hi [Sig:beef]".toList) = true := by
  exact ⟨rfl, rfl⟩

/-- C7 counterexample: a PRIVMSG whose params `#general hello` contain no
` :` separator yields an empty-content message addressed to the ENTIRE
params string `#general hello`, not to the first whitespace-delimited token
`#general` as claimed. -/
theorem privmsg_no_sep_cex :
    (botClient.parse_message ":a!u@h PRIVMSG #general hello").events =
      [Event.message
        { channel := "#general hello", nick := "a", content := "",
          soul_id := none, signature := none }] ∧
    ¬ ("#general hello" = "#general") := by
  exact ⟨rfl, by decide⟩

/-! ### Helper lemmas on the string primitives -/

/-- Strings: `toList` is the `data` field. -/
theorem str_toList (s : String) : s.toList = s.data := rfl

/-- Rebuilding a string from its own characters is the identity. -/
theorem strMk_data (s : String) : String.mk s.data = s := by
  obtain ⟨l⟩ := s
  rfl

/-- A prefix is no longer than the list it heads. -/
theorem hasPref_length {p l : List Char} (h : hasPref p l = true) : p.length ≤ l.length := by
  induction p generalizing l with
  | nil => simp
  | cons x xs ih =>
    cases l with
    | nil => simp [hasPref] at h
    | cons c cs =>
      simp only [hasPref] at h
      split at h
      · simpa using ih h
      · simp at h

/-- A successful tag match strictly shrinks the list. -/
theorem trySoulTag_length {l idc rem : List Char} (h : trySoulTag l = some (idc, rem)) :
    rem.length < l.length := by
  unfold trySoulTag at h
  by_cases hpref : hasPref soulTagLit l = true
  · rw [if_pos hpref] at h
    by_cases hemp : List.takeWhile (fun c => !(c = ']')) (l.drop 6) = [] ∨
        List.dropWhile (fun c => !(c = ']')) (l.drop 6) = []
    · rw [if_pos hemp] at h
      exact absurd h (by simp)
    · rw [if_neg hemp] at h
      simp only [Option.some.injEq, Prod.mk.injEq] at h
      obtain ⟨-, hrem⟩ := h
      obtain ⟨-, h2⟩ := not_or.mp hemp
      have hd : (List.dropWhile (fun c => !(c = ']')) (l.drop 6)).length ≤ (l.drop 6).length :=
        (List.dropWhile_sublist _).length_le
      have hpos : 0 < (List.dropWhile (fun c => !(c = ']')) (l.drop 6)).length :=
        List.length_pos.mpr h2
      have h6 : 6 ≤ l.length := by
        have := hasPref_length hpref
        simpa [soulTagLit] using this
      have hlen6 : (l.drop 6).length = l.length - 6 := List.length_drop 6 l
      have htail : ((List.dropWhile (fun c => !(c = ']')) (l.drop 6)).tail).length =
          (List.dropWhile (fun c => !(c = ']')) (l.drop 6)).length - 1 := List.length_tail _
      rw [← hrem, htail]
      omega
  · simp [hpref] at h

/-- Fuel lemma: `soulSubF` does not depend on the fuel, as long as it covers the length. -/
theorem soulSubF_fuel : ∀ (n m : Nat) (l : List Char), l.length ≤ n → l.length ≤ m →
    soulSubF n l = soulSubF m l := by
  intro n
  induction n with
  | zero =>
    intro m l hn _
    have hl : l = [] := by
      cases l with
      | nil => rfl
      | cons c cs => simp at hn
    subst hl
    cases m <;> rfl
  | succ n ih =>
    intro m l hn hm
    cases l with
    | nil => cases m <;> rfl
    | cons c cs =>
      cases m with
      | zero => simp at hm
      | succ m' =>
        simp only [List.length_cons] at hn hm
        simp only [soulSubF]
        rcases htag : trySoulTag (c :: cs) with _ | ⟨idc, rem⟩
        · exact congrArg (c :: ·) (ih m' cs (by omega) (by omega))
        · have hlt := trySoulTag_length htag
          simp only [List.length_cons] at hlt
          exact ih m' rem (by omega) (by omega)

/-- The one-step unfolding of `soulSub`. -/
theorem soulSub_cons (c : Char) (cs : List Char) :
    soulSub (c :: cs) = match trySoulTag (c :: cs) with
      | some (_, rem) => soulSub rem
      | none => c :: soulSub cs := by
  show soulSubF (c :: cs).length (c :: cs) = _
  simp only [List.length_cons, soulSubF]
  rcases htag : trySoulTag (c :: cs) with _ | ⟨idc, rem⟩
  · rfl
  · have hlt := trySoulTag_length htag
    simp only [List.length_cons] at hlt
    show soulSubF cs.length rem = soulSub rem
    unfold soulSub
    exact soulSubF_fuel _ _ _ (by omega) le_rfl

/-- Lemma: `soulSub` passes over characters that cannot start a tag. -/
theorem soulSub_append_noBr (a b : List Char) (h : '[' ∉ a) :
    soulSub (a ++ b) = a ++ soulSub b := by
  induction a with
  | nil => simp
  | cons c cs ih =>
    obtain ⟨h1, h2⟩ := not_or.mp (by rwa [List.mem_cons] at h)
    have hne : ¬ ('[' : Char) = c := h1
    have htag : trySoulTag (c :: (cs ++ b)) = none := by
      unfold trySoulTag
      rw [if_neg]
      simp [hasPref, soulTagLit, hne]
    rw [List.cons_append, soulSub_cons, htag]
    simp [ih h2]

/-- Lemma: `soulSub` is the identity on bracket-free text. -/
theorem soulSub_noBr (b : List Char) (h : '[' ∉ b) : soulSub b = b := by
  have h0 : soulSub [] = ([] : List Char) := rfl
  simpa [h0] using soulSub_append_noBr b [] h

/-- Lemma: `takeWhile` walks through a block that satisfies the predicate. -/
theorem takeWhile_append_all (p : Char → Bool) (a b : List Char)
    (h : ∀ x ∈ a, p x = true) : (a ++ b).takeWhile p = a ++ b.takeWhile p := by
  induction a with
  | nil => simp
  | cons c cs ih =>
    have hc := h c (List.mem_cons_self c cs)
    simp [List.takeWhile_cons, hc, ih (fun x hx => h x (List.mem_cons_of_mem _ hx))]

/-- Lemma: `dropWhile` walks through a block that satisfies the predicate. -/
theorem dropWhile_append_all (p : Char → Bool) (a b : List Char)
    (h : ∀ x ∈ a, p x = true) : (a ++ b).dropWhile p = b.dropWhile p := by
  induction a with
  | nil => simp
  | cons c cs ih =>
    have hc := h c (List.mem_cons_self c cs)
    simp [List.dropWhile_cons, hc, ih (fun x hx => h x (List.mem_cons_of_mem _ hx))]

/-- The tag pattern matches a well-formed tag, capturing the id. -/
theorem trySoulTag_soul (idc rest : List Char) (h1 : idc ≠ []) (h2 : ']' ∉ idc) :
    trySoulTag ('[' :: 'S' :: 'o' :: 'u' :: 'l' :: ':' :: (idc ++ ']' :: rest)) =
      some (idc, rest) := by
  have hPref : hasPref soulTagLit
      ('[' :: 'S' :: 'o' :: 'u' :: 'l' :: ':' :: (idc ++ ']' :: rest)) = true := by
    simp [hasPref, soulTagLit]
  have hall : ∀ x ∈ idc, (fun c => !(c = ']')) x = true := by
    intro x hx
    simp only [Bool.not_eq_true']
    exact decide_eq_false (fun e => h2 (e ▸ hx))
  unfold trySoulTag
  rw [if_pos hPref]
  simp only [List.drop_succ_cons, List.drop_zero]
  rw [takeWhile_append_all _ _ _ hall, dropWhile_append_all _ _ _ hall]
  simp [h1]

/-- The tag pattern rejects a `[Sig:`-headed block. -/
theorem trySoulTag_sigHead (l : List Char) :
    trySoulTag ('[' :: 'S' :: 'i' :: 'g' :: ':' :: l) = none := by
  unfold trySoulTag
  rw [if_neg]
  simp [hasPref, soulTagLit]

/-- Lemma: `soulFind` answers immediately when the tag matches at the head. -/
theorem soulFind_cons_some {c : Char} {cs idc rem : List Char}
    (h : trySoulTag (c :: cs) = some (idc, rem)) : soulFind (c :: cs) = some idc := by
  simp [soulFind, h]

/-- A prefix occurrence is a substring occurrence. -/
theorem hasSub_of_pref {pat l : List Char} (h : hasPref pat l = true) :
    hasSub pat l = true := by
  cases l with
  | nil => simpa [hasSub] using h
  | cons c cs => simp [hasSub, h]

/-- Lemma: `strip` removes a leading space. -/
theorem pyStripChars_cons_space (l : List Char) :
    pyStripChars (' ' :: l) = pyStripChars l := by
  simp [pyStripChars, List.dropWhile_cons, pyIsSpace]

/-- Lemma: `strip` is the identity when both ends are non-whitespace. -/
theorem pyStripChars_no_space (l : List Char)
    (hh : ∀ x, l.head? = some x → pyIsSpace x = false)
    (hl : ∀ x, l.getLast? = some x → pyIsSpace x = false) :
    pyStripChars l = l := by
  cases l with
  | nil => rfl
  | cons c cs =>
    have hc : pyIsSpace c = false := hh c rfl
    have h1 : (c :: cs).dropWhile pyIsSpace = c :: cs := by
      simp [List.dropWhile_cons, hc]
    have h2 : (c :: cs).reverse.dropWhile pyIsSpace = (c :: cs).reverse := by
      rcases hr : (c :: cs).reverse with _ | ⟨d, ds⟩
      · rfl
      · have hd : (c :: cs).getLast? = some d := by
          rw [← List.head?_reverse, hr]
          rfl
        rw [List.dropWhile_cons, hl d hd]
        simp
    unfold pyStripChars
    rw [h1, h2, List.reverse_reverse]

/-- C10: every `Message` produced by parsing an incoming line has
`signature = none` (the parser extracts `soul_id` but never populates
`signature`), so `is_verified` is false for every received message. -/
theorem received_signature_none (cl : AgentClient) (line : String) (m : Message)
    (hm : Event.message m ∈ (cl.parse_message line).events) :
    m.signature = none ∧ m.is_verified = false := by
  have hsig : m.signature = none := by
    unfold AgentClient.parse_message at hm
    split at hm
    · simp at hm
    · split at hm
      · unfold parseColon at hm
        split at hm
        · unfold parseCmd at hm
          split at hm
          · simp only [privmsgOut, List.mem_singleton, Event.message.injEq] at hm
            subst hm
            rfl
          · split at hm
            · simp [joinOut] at hm
            · split at hm
              · unfold partOut at hm
                split at hm
                · simp at hm
                · simp at hm
              · split at hm
                · simp at hm
                · simp [noOut] at hm
        · simp [noOut] at hm
      · simp [noOut] at hm
  exact ⟨hsig, by simp [Message.is_verified, hsig]⟩

/-- C10 witness: a concrete soul-tagged line yields a message whose
signature is `none` and which is not verified. -/
theorem received_signature_none_witness :
    Event.message
        { channel := "#c", nick := "A", content := "hi",
          soul_id := some "x", signature := none } ∈
      (botClient.parse_message ":A!u@h PRIVMSG #c :[Soul:x] hi").events ∧
    (({ channel := "#c", nick := "A", content := "hi",
        soul_id := some "x", signature := none } : Message).signature = none ∧
     ({ channel := "#c", nick := "A", content := "hi",
        soul_id := some "x", signature := none } : Message).is_verified = false) :=
  ⟨by decide,
   received_signature_none botClient ":A!u@h PRIVMSG #c :[Soul:x] hi" _ (by decide)⟩

/-- Case analysis of `_parse_message` as a transformation of the channel
set: every line either leaves any channel set unchanged, or is a JOIN by
the client's own nick (inserting one channel), or a PART by the client's
own nick (erasing one channel). -/
theorem parse_message_cases (cl : AgentClient) (line : String) :
    (∀ D : Finset String,
        (AgentClient.parse_message { cl with channels := D } line).channels = D) ∨
    (∃ ch, (cl.parse_message line).events = [Event.join ch cl.nick] ∧
      ∀ D : Finset String,
        (AgentClient.parse_message { cl with channels := D } line).channels = insert ch D) ∨
    (∃ ch, (cl.parse_message line).events = [Event.part ch cl.nick] ∧
      ∀ D : Finset String,
        (AgentClient.parse_message { cl with channels := D } line).channels = D.erase ch) := by
  by_cases h1 : hasPref pingLit line.data = true
  · left
    intro D
    simp [AgentClient.parse_message, h1]
  · by_cases h2 : hasPref colonLit line.data = true
    · rcases hps : pySplit2 line.data.tail with _ | ⟨src, _ | ⟨cmd, restP⟩⟩
      · left
        intro D
        simp [AgentClient.parse_message, h1, h2, parseColon, hps, noOut]
      · left
        intro D
        simp [AgentClient.parse_message, h1, h2, parseColon, hps, noOut]
      · by_cases hc1 : cmd = ['P', 'R', 'I', 'V', 'M', 'S', 'G']
        · left
          intro D
          simp [AgentClient.parse_message, h1, h2, parseColon, hps, parseCmd, hc1, privmsgOut]
        · by_cases hc2 : cmd = ['J', 'O', 'I', 'N']
          · by_cases hn : String.mk (src.takeWhile (fun c => !(c = '!'))) = cl.nick
            · refine Or.inr (Or.inl ⟨String.mk (joinChannelOf (paramsOf restP)), ?_, ?_⟩)
              · simp [AgentClient.parse_message, h1, h2, parseColon, hps, parseCmd,
                      hc1, hc2, joinOut, hn]
              · intro D
                simp [AgentClient.parse_message, h1, h2, parseColon, hps, parseCmd,
                      hc1, hc2, joinOut, hn]
            · left
              intro D
              simp [AgentClient.parse_message, h1, h2, parseColon, hps, parseCmd,
                    hc1, hc2, joinOut, hn]
          · by_cases hc3 : cmd = ['P', 'A', 'R', 'T']
            · rcases hft : firstWsToken (paramsOf restP) with _ | ⟨tok⟩
              · left
                intro D
                simp [AgentClient.parse_message, h1, h2, parseColon, hps, parseCmd,
                      hc1, hc2, hc3, partOut, hft]
              · by_cases hn : String.mk (src.takeWhile (fun c => !(c = '!'))) = cl.nick
                · refine Or.inr (Or.inr ⟨String.mk tok, ?_, ?_⟩)
                  · simp [AgentClient.parse_message, h1, h2, parseColon, hps, parseCmd,
                          hc1, hc2, hc3, partOut, hft, hn]
                  · intro D
                    simp [AgentClient.parse_message, h1, h2, parseColon, hps, parseCmd,
                          hc1, hc2, hc3, partOut, hft, hn]
                · left
                  intro D
                  simp [AgentClient.parse_message, h1, h2, parseColon, hps, parseCmd,
                        hc1, hc2, hc3, partOut, hft, hn]
            · by_cases hc4 : cmd = ['Q', 'U', 'I', 'T']
              · left
                intro D
                simp [AgentClient.parse_message, h1, h2, parseColon, hps, parseCmd,
                      hc1, hc2, hc3, hc4]
              · left
                intro D
                simp [AgentClient.parse_message, h1, h2, parseColon, hps, parseCmd,
                      hc1, hc2, hc3, hc4, noOut]
    · left
      intro D
      simp [AgentClient.parse_message, h1, h2, noOut]

/-- C8: the channel membership set is changed only by parsing a JOIN or
PART line whose acting nick is the client's own (insert resp. erase); the
outgoing operations `say`/`join`/`part`/`quit` leave it unchanged; and
parsing the same line twice yields the same channel set as parsing it once
(duplicate JOIN adds are a no-op, by `Finset.insert` idempotence). -/
theorem channels_only_self_join_part (cl : AgentClient)
    (line target text reason channel : String) (sgn : Bool) :
    ((cl.say target text sgn).1.channels = cl.channels ∧
     (cl.join channel).1.channels = cl.channels ∧
     (cl.part channel reason).1.channels = cl.channels ∧
     (cl.quit reason).1.channels = cl.channels) ∧
    ((cl.parse_message line).channels = cl.channels ∨
     (∃ ch, (cl.parse_message line).events = [Event.join ch cl.nick] ∧
            (cl.parse_message line).channels = insert ch cl.channels) ∨
     (∃ ch, (cl.parse_message line).events = [Event.part ch cl.nick] ∧
            (cl.parse_message line).channels = cl.channels.erase ch)) ∧
    (AgentClient.parse_message
        { cl with channels := (cl.parse_message line).channels } line).channels =
      (cl.parse_message line).channels := by
  have hself : ({ cl with channels := cl.channels } : AgentClient) = cl := rfl
  refine ⟨⟨rfl, rfl, rfl, rfl⟩, ?_, ?_⟩
  · rcases parse_message_cases cl line with h | ⟨ch, he, h⟩ | ⟨ch, he, h⟩
    · left
      have := h cl.channels
      rwa [hself] at this
    · right; left
      refine ⟨ch, he, ?_⟩
      have := h cl.channels
      rwa [hself] at this
    · right; right
      refine ⟨ch, he, ?_⟩
      have := h cl.channels
      rwa [hself] at this
  · rcases parse_message_cases cl line with h | ⟨ch, he, h⟩ | ⟨ch, he, h⟩
    · rw [h ((cl.parse_message line).channels)]
    · have h1 := h cl.channels
      rw [hself] at h1
      rw [h ((cl.parse_message line).channels), h1, Finset.insert_idem]
    · have h1 := h cl.channels
      rw [hself] at h1
      rw [h ((cl.parse_message line).channels), h1, Finset.erase_idem]

/-- Registering appends the handler at the end of its event's list. -/
theorem regGet_onReg (reg : List (String × List Handler)) (e : String) (h : Handler) :
    regGet (onReg reg e h) e = regGet reg e ++ [h] := by
  induction reg with
  | nil => simp [onReg, regGet]
  | cons kv rest ih =>
    obtain ⟨k, l⟩ := kv
    by_cases hk : k = e
    · simp [onReg, regGet, hk]
    · simp [onReg, regGet, hk, ih]

/-- The dispatch loop produces the outputs of every handler, in list
order, raising handlers included. -/
theorem triggerList_outs (hs : List Handler) :
    (triggerList hs).1 = (hs.map Handler.outs).flatten := by
  induction hs with
  | nil => rfl
  | cons h rest ih => simp [triggerList, ih]

/-- The dispatch loop logs exactly one error per raising handler. -/
theorem triggerList_errs (hs : List Handler) :
    (triggerList hs).2.length = (hs.filter Handler.raises).length := by
  induction hs with
  | nil => rfl
  | cons h rest ih =>
    by_cases hr : h.raises = true <;> simp [triggerList, List.filter_cons, hr, ih]

/-- C9: `on` appends handlers in registration order, and `_trigger` invokes
every registered handler in that order — the concatenation of all handler
outputs, in list order, is produced even when some handlers raise — while
each raising handler is caught and logged (one log entry per raiser);
`trigger` is a total function, so no handler failure propagates to its
caller. -/
theorem dispatch_ordered_isolated :
    (∀ (cl : AgentClient) (e : String) (h : Handler),
        regGet (cl.on e h).handlers e = regGet cl.handlers e ++ [h]) ∧
    (∀ (cl : AgentClient) (e : String),
        (cl.trigger e).1 = ((regGet cl.handlers e).map Handler.outs).flatten) ∧
    (∀ (cl : AgentClient) (e : String),
        (cl.trigger e).2.length = ((regGet cl.handlers e).filter Handler.raises).length) :=
  ⟨fun cl e h => regGet_onReg cl.handlers e h,
   fun cl e => triggerList_outs (regGet cl.handlers e),
   fun cl e => triggerList_errs (regGet cl.handlers e)⟩

/-- C4 amended: on any line starting with `PING`, the client's only action
for that line is to transmit `PONG ` followed by the line's characters from
index 5 on — for `PING :abc123` the trailing-parameter colon is retained —
with no events emitted and no other effect, before any further line is
parsed. -/
theorem ping_sends_colon_payload (cl : AgentClient) (line : String)
    (h : hasPref pingLit line.data = true) :
    cl.parse_message line =
      { sends := ["PONG " ++ String.mk (line.data.drop 5)],
        events := [], channels := cl.channels, failed := false } := by
  simp [AgentClient.parse_message, h]

/-- C4 witness: the theorem applied to the line `PING :abc123`. -/
theorem ping_sends_colon_payload_witness :
    hasPref pingLit ("PING :abc123" : String).data = true ∧
    botClient.parse_message "PING :abc123" =
      { sends := ["PONG " ++ String.mk (("PING :abc123" : String).data.drop 5)],
        events := [], channels := botClient.channels, failed := false } :=
  ⟨by decide, ping_sends_colon_payload botClient "PING :abc123" (by decide)⟩

/-- C7 amended: a PRIVMSG line whose params contain no ` :` separator is
not dropped — it produces an empty-content `Message` — but it is addressed
to the ENTIRE params string (the whole remainder after the command), which
coincides with the first whitespace-delimited token only when the params
are a single token. -/
theorem privmsg_no_sep_whole_params (params : String)
    (h : pyPartitionSep spColonLit params.toList = none) :
    (botClient.parse_message (":a!u@h PRIVMSG " ++ params)).events =
      [Event.message
        { channel := params, nick := "a", content := "",
          soul_id := none, signature := none }] := by
  have hdata : ((":a!u@h PRIVMSG " ++ params) : String).data
      = ':' :: 'a' :: '!' :: 'u' :: '@' :: 'h' :: ' ' ::
        'P' :: 'R' :: 'I' :: 'V' :: 'M' :: 'S' :: 'G' :: ' ' :: params.data := by
    obtain ⟨l⟩ := params
    rfl
  have h' : pyPartitionSep spColonLit params.data = none := h
  simp only [AgentClient.parse_message, hdata]
  simp [hasPref, pingLit, colonLit, parseColon, pySplit2, splitSp1, parseCmd,
        paramsOf, privmsgOut, hasSub, h', strMk_data]

/-- C7 witness: the theorem applied to the params `#general hello`. -/
theorem privmsg_no_sep_whole_params_witness :
    pyPartitionSep spColonLit ("#general hello" : String).toList = none ∧
    (botClient.parse_message (":a!u@h PRIVMSG " ++ "#general hello")).events =
      [Event.message
        { channel := "#general hello", nick := "a", content := "",
          soul_id := none, signature := none }] :=
  ⟨by decide, privmsg_no_sep_whole_params "#general hello" (by decide)⟩

/-- C6 amended: for a PRIVMSG whose content is a soul tag followed by text
and a trailing `[Sig:...]` suffix, the produced message has the soul tag
removed (and the ends whitespace-stripped) but the `[Sig:...]` suffix is
NOT removed: it remains verbatim in the visible content. -/
theorem sig_left_in_content (id m sig : String)
    (hid : id.toList ≠ []) (hid2 : ']' ∉ id.toList)
    (hm0 : m.toList ≠ []) (hmb : '[' ∉ m.toList)
    (hmh : pyIsSpace (m.toList.headD 'a') = false)
    (hsb : '[' ∉ sig.toList) :
    (botClient.parse_message
        (":Alice!u@h PRIVMSG #general :[Soul:" ++ id ++ "] " ++ m ++
         " [Sig:" ++ sig ++ "]")).events =
      [Event.message
        { channel := "#general", nick := "Alice",
          content := m ++ " [Sig:" ++ sig ++ "]",
          soul_id := some id, signature := none }] := by
  obtain ⟨ic⟩ := id
  obtain ⟨mc⟩ := m
  obtain ⟨sc⟩ := sig
  replace hid : ic ≠ [] := hid
  replace hid2 : ']' ∉ ic := hid2
  replace hm0 : mc ≠ [] := hm0
  replace hmb : '[' ∉ mc := hmb
  replace hmh : pyIsSpace (mc.headD 'a') = false := hmh
  replace hsb : '[' ∉ sc := hsb
  have e1 : (":Alice!u@h PRIVMSG #general :[Soul:" : String).data =
      ':' :: 'A' :: 'l' :: 'i' :: 'c' :: 'e' :: '!' :: 'u' :: '@' :: 'h' :: ' ' ::
      'P' :: 'R' :: 'I' :: 'V' :: 'M' :: 'S' :: 'G' :: ' ' ::
      '#' :: 'g' :: 'e' :: 'n' :: 'e' :: 'r' :: 'a' :: 'l' :: ' ' :: ':' ::
      '[' :: 'S' :: 'o' :: 'u' :: 'l' :: [':'] := rfl
  have e2 : (("] " : String)).data = ']' :: [' '] := rfl
  have e3 : ((" [Sig:" : String)).data = ' ' :: '[' :: 'S' :: 'i' :: 'g' :: [':'] := rfl
  have e4 : (("]" : String)).data = [']'] := rfl
  have hdata : ((":Alice!u@h PRIVMSG #general :[Soul:" ++ String.mk ic ++ "] " ++ String.mk mc ++
      " [Sig:" ++ String.mk sc ++ "]") : String).data =
      ':' :: 'A' :: 'l' :: 'i' :: 'c' :: 'e' :: '!' :: 'u' :: '@' :: 'h' :: ' ' ::
      'P' :: 'R' :: 'I' :: 'V' :: 'M' :: 'S' :: 'G' :: ' ' ::
      '#' :: 'g' :: 'e' :: 'n' :: 'e' :: 'r' :: 'a' :: 'l' :: ' ' :: ':' ::
      '[' :: 'S' :: 'o' :: 'u' :: 'l' :: ':' ::
      (ic ++ ']' :: ' ' :: (mc ++ ' ' :: '[' :: 'S' :: 'i' :: 'g' :: ':' :: (sc ++ [']']))) := by
    simp only [String.data_append, e1, e2, e3, e4]
    simp [List.append_assoc]
  have htag : trySoulTag ('[' :: 'S' :: 'o' :: 'u' :: 'l' :: ':' ::
      (ic ++ ']' :: ' ' :: (mc ++ ' ' :: '[' :: 'S' :: 'i' :: 'g' :: ':' :: (sc ++ [']'])))) =
      some (ic, ' ' :: (mc ++ ' ' :: '[' :: 'S' :: 'i' :: 'g' :: ':' :: (sc ++ [']']))) :=
    trySoulTag_soul ic _ hid hid2
  have hfind : soulFind ('[' :: 'S' :: 'o' :: 'u' :: 'l' :: ':' ::
      (ic ++ ']' :: ' ' :: (mc ++ ' ' :: '[' :: 'S' :: 'i' :: 'g' :: ':' :: (sc ++ [']'])))) =
      some ic := soulFind_cons_some htag
  have hhsub : hasSub soulTagLit ('[' :: 'S' :: 'o' :: 'u' :: 'l' :: ':' ::
      (ic ++ ']' :: ' ' :: (mc ++ ' ' :: '[' :: 'S' :: 'i' :: 'g' :: ':' :: (sc ++ [']'])))) =
      true := hasSub_of_pref (by simp [hasPref, soulTagLit])
  have hA : '[' ∉ (' ' :: (mc ++ [' '])) := by
    intro hmem
    rcases List.mem_cons.mp hmem with h' | h'
    · exact absurd h' (by decide)
    · rcases List.mem_append.mp h' with h'' | h''
      · exact hmb h''
      · simp at h''
  have hB : '[' ∉ ('S' :: 'i' :: 'g' :: ':' :: (sc ++ [']'])) := by simpa using hsb
  have hsub : soulSub ('[' :: 'S' :: 'o' :: 'u' :: 'l' :: ':' ::
      (ic ++ ']' :: ' ' :: (mc ++ ' ' :: '[' :: 'S' :: 'i' :: 'g' :: ':' :: (sc ++ [']'])))) =
      ' ' :: (mc ++ ' ' :: '[' :: 'S' :: 'i' :: 'g' :: ':' :: (sc ++ [']'])) := by
    rw [soulSub_cons, htag]
    show soulSub (' ' :: (mc ++ ' ' :: '[' :: 'S' :: 'i' :: 'g' :: ':' :: (sc ++ [']']))) =
      ' ' :: (mc ++ ' ' :: '[' :: 'S' :: 'i' :: 'g' :: ':' :: (sc ++ [']']))
    have hsplit : ' ' :: (mc ++ ' ' :: '[' :: 'S' :: 'i' :: 'g' :: ':' :: (sc ++ [']'])) =
        (' ' :: (mc ++ [' '])) ++ ('[' :: 'S' :: 'i' :: 'g' :: ':' :: (sc ++ [']'])) := by
      simp [List.append_assoc]
    rw [hsplit, soulSub_append_noBr _ _ hA, soulSub_cons, trySoulTag_sigHead]
    show (' ' :: (mc ++ [' '])) ++
        ('[' :: soulSub ('S' :: 'i' :: 'g' :: ':' :: (sc ++ [']']))) =
      (' ' :: (mc ++ [' '])) ++ ('[' :: 'S' :: 'i' :: 'g' :: ':' :: (sc ++ [']']))
    rw [soulSub_noBr _ hB]
  have hstrip : pyStripChars
      (' ' :: (mc ++ ' ' :: '[' :: 'S' :: 'i' :: 'g' :: ':' :: (sc ++ [']']))) =
      mc ++ ' ' :: '[' :: 'S' :: 'i' :: 'g' :: ':' :: (sc ++ [']']) := by
    rw [pyStripChars_cons_space]
    rcases hmc : mc with _ | ⟨c0, m0⟩
    · exact absurd hmc hm0
    · rw [hmc] at hmh
      simp only [List.headD_cons] at hmh
      apply pyStripChars_no_space
      · intro x hx
        simp only [List.cons_append, List.head?] at hx
        cases hx
        exact hmh
      · intro x hx
        have hg : ((c0 :: m0) ++ ' ' :: '[' :: 'S' :: 'i' :: 'g' :: ':' :: (sc ++ [']'])).getLast?
            = some ']' := by
          have hconc : (c0 :: m0) ++ ' ' :: '[' :: 'S' :: 'i' :: 'g' :: ':' :: (sc ++ [']']) =
              ((c0 :: m0) ++ ' ' :: '[' :: 'S' :: 'i' :: 'g' :: ':' :: sc) ++ [']'] := by
            simp [List.append_assoc]
          rw [hconc, List.getLast?_concat]
        rw [hg] at hx
        cases hx
        decide
  have hchan : String.mk ['#', 'g', 'e', 'n', 'e', 'r', 'a', 'l'] = "#general" := rfl
  have hnick : String.mk ['A', 'l', 'i', 'c', 'e'] = "Alice" := rfl
  have hrhs : (String.mk mc ++ " [Sig:" ++ String.mk sc ++ "]" : String) =
      String.mk (mc ++ ' ' :: '[' :: 'S' :: 'i' :: 'g' :: ':' :: (sc ++ [']'])) := by
    have hd : (String.mk mc ++ " [Sig:" ++ String.mk sc ++ "]" : String).data =
        mc ++ ' ' :: '[' :: 'S' :: 'i' :: 'g' :: ':' :: (sc ++ [']']) := by
      simp only [String.data_append, e3, e4]
      simp [List.append_assoc]
    rw [← hd]
  simp only [AgentClient.parse_message, hdata]
  simp [hasPref, pingLit, colonLit, parseColon, pySplit2, splitSp1, parseCmd,
        paramsOf, privmsgOut, pyPartitionSep, spColonLit, List.takeWhile_cons,
        hhsub, hfind, hsub, hstrip, hchan, hnick, hrhs]

/-- C6 witness: the theorem applied to id `deadbeef`, text `hi` and
signature text `beef1234`. -/
theorem sig_left_in_content_witness :
    (("deadbeef" : String).toList ≠ [] ∧ ']' ∉ ("deadbeef" : String).toList ∧
     ("hi" : String).toList ≠ [] ∧ '[' ∉ ("hi" : String).toList ∧
     pyIsSpace (("hi" : String).toList.headD 'a') = false ∧
     '[' ∉ ("beef1234" : String).toList) ∧
    (botClient.parse_message
        (":Alice!u@h PRIVMSG #general :[Soul:" ++ "deadbeef" ++ "] " ++ "hi" ++
         " [Sig:" ++ "beef1234" ++ "]")).events =
      [Event.message
        { channel := "#general", nick := "Alice",
          content := "hi" ++ " [Sig:" ++ "beef1234" ++ "]",
          soul_id := some "deadbeef", signature := none }] :=
  ⟨⟨by decide, by decide, by decide, by decide, by decide, by decide⟩,
   sig_left_in_content "deadbeef" "hi" "beef1234" (by decide) (by decide) (by decide)
     (by decide) (by decide) (by decide)⟩
